import Mathlib

/-!
Verification of the particle-system core of the GestureTree component
(`src/components/GestureTree.tsx`).

The component drives `PARTICLE_COUNT` independent particles.  Each particle
has a live position, a velocity, a tree-shaped target and an "exploded"
target, all stored as flat `Float32Array`s of x,y,z components.  Once per
animation frame the `animate` loop moves every particle toward the active
target with a constant-magnitude force plus multiplicative damping.

The embedding below models the float arithmetic of the source over `ℝ`.
A 3-vector is a function `Fin 3 → ℝ`, mirroring the x,y,z slots
`a[i3]`, `a[i3+1]`, `a[i3+2]` of the flat arrays.  Every random draw
(`Math.random()`, a number in `[0,1)`) is passed in explicitly as a real
parameter, so the stateful RNG becomes explicit data flow.  Wall-clock
timers (`setTimeout`) become explicit absolute deadlines in seconds.
-/

noncomputable section

/-- A 3-vector of reals: the x,y,z components of one particle slot. -/
abbrev V3 := Fin 3 → ℝ

/-- The same data seen with the Euclidean (ℓ²) norm, used in proofs. -/
abbrev E3 := EuclideanSpace ℝ (Fin 3)

/-- Reinterpret a component vector with the Euclidean norm (the identity map). -/
def toE (v : V3) : E3 := v

/-- Build a 3-vector from its components. -/
def mk3 (a b c : ℝ) : V3 := ![a, b, c]

/-- Distance between two points, exactly as the source computes it:
`Math.sqrt(dx*dx + dy*dy + dz*dz)` with `dx = target.x - pos.x`, etc.
(`GestureTree.tsx` lines 431–434 and 447–450). -/
def distTo (p t : V3) : ℝ :=
  Real.sqrt ((t 0 - p 0) ^ 2 + (t 1 - p 1) ^ 2 + (t 2 - p 2) ^ 2)

/-- Force constant `GRAVITY_STRENGTH` of the tree branch (line 397). -/
def GRAVITY_STRENGTH : ℝ := 0.35

/-- Force constant `EXPLOSION_STRENGTH` of the exploded branch (line 398). -/
def EXPLOSION_STRENGTH : ℝ := 0.25

/-- Damping factor `DAMPING` applied to the velocity every frame (line 399). -/
def DAMPING : ℝ := 0.90

/-- Jitter scale `BROWN_MOTION` of the exploded branch (line 400). -/
def BROWN_MOTION : ℝ := 0.03

/-- One particle's update in one pass of the `animate` loop
(`GestureTree.tsx` lines 418–471), translated statement by statement.

* `pinch` is `pinchStrengthRef.current`;
* `tTree`/`tExp` are this particle's slots of `targetTree`/`targetExploded`;
* `jit k` is the `Math.random()` draw used for axis `k` in the exploded
  branch (unused by the tree branch);
* the result is the new `(position, velocity)` pair.
-/
def animateStep (pinch : ℝ) (tTree tExp : V3) (jit : Fin 3 → ℝ)
    (pos vel : V3) : V3 × V3 :=
  if pinch > 0.01 then
    -- tree branch: target = targetTree, force = GRAVITY_STRENGTH * pinch
    let d := distTo pos tTree
    let v1 : V3 :=
      if d > 0.01 then
        mk3 (vel 0 + (tTree 0 - pos 0) / d * (GRAVITY_STRENGTH * pinch))
            (vel 1 + (tTree 1 - pos 1) / d * (GRAVITY_STRENGTH * pinch))
            (vel 2 + (tTree 2 - pos 2) / d * (GRAVITY_STRENGTH * pinch))
      else vel
    let v2 : V3 := mk3 (v1 0 * DAMPING) (v1 1 * DAMPING) (v1 2 * DAMPING)
    (mk3 (pos 0 + v2 0) (pos 1 + v2 1) (pos 2 + v2 2), v2)
  else
    -- exploded branch: target = targetExploded, flat force, Brownian jitter
    let d := distTo pos tExp
    let v1 : V3 :=
      if d > 0.01 then
        mk3 (vel 0 + (tExp 0 - pos 0) / d * EXPLOSION_STRENGTH)
            (vel 1 + (tExp 1 - pos 1) / d * EXPLOSION_STRENGTH)
            (vel 2 + (tExp 2 - pos 2) / d * EXPLOSION_STRENGTH)
      else vel
    let vj : V3 := mk3 (v1 0 + (jit 0 - 0.5) * BROWN_MOTION)
                       (v1 1 + (jit 1 - 0.5) * BROWN_MOTION)
                       (v1 2 + (jit 2 - 0.5) * BROWN_MOTION)
    let v2 : V3 := mk3 (vj 0 * DAMPING) (vj 1 * DAMPING) (vj 2 * DAMPING)
    (mk3 (pos 0 + v2 0) (pos 1 + v2 1) (pos 2 + v2 2), v2)

/-- The integrator update as claim C1 words it: pick the active target by
`pinchStrength > 0.01`; if the distance to it exceeds `0.01`, add to the
velocity the unit vector toward the target scaled by `0.35 * pinchStrength`
(tree) or the flat `0.25` (exploded); in the exploded branch additionally
add the jitter vector; damp the velocity by `0.90`; advance the position by
the velocity.  The jitter vector is a parameter here; the claim bounds it
by `±0.015` per axis. -/
def specIntegrate (pinch : ℝ) (tTree tExp : V3) (jitter : V3)
    (pos vel : V3) : V3 × V3 :=
  let tgt := if pinch > 0.01 then tTree else tExp
  let d := distTo pos tgt
  let unitToTarget : V3 := (1 / d) • (tgt - pos)
  let v1 :=
    if d > 0.01 then
      vel + (if pinch > 0.01 then 0.35 * pinch else 0.25) • unitToTarget
    else vel
  let v2 := if pinch > 0.01 then v1 else v1 + jitter
  let v3 : V3 := (0.9 : ℝ) • v2
  (pos + v3, v3)

/-- Division that refuses a near-zero divisor (magnitude at most `0.01`).
Routing the source's normalization through this partial division makes
"never divides by a near-zero magnitude" checkable (claim C5). -/
def divGuard (a b : ℝ) : Option ℝ :=
  if 0.01 < |b| then some (a / b) else none

/-- `animateStep` with every division routed through `divGuard`:
it returns `none` exactly when some executed division has a divisor of
magnitude at most `0.01`. -/
def animateStepChecked (pinch : ℝ) (tTree tExp : V3) (jit : Fin 3 → ℝ)
    (pos vel : V3) : Option (V3 × V3) :=
  if pinch > 0.01 then
    let d := distTo pos tTree
    if d > 0.01 then do
      let u0 ← divGuard (tTree 0 - pos 0) d
      let u1 ← divGuard (tTree 1 - pos 1) d
      let u2 ← divGuard (tTree 2 - pos 2) d
      let v1 : V3 := mk3 (vel 0 + u0 * (GRAVITY_STRENGTH * pinch))
                         (vel 1 + u1 * (GRAVITY_STRENGTH * pinch))
                         (vel 2 + u2 * (GRAVITY_STRENGTH * pinch))
      let v2 : V3 := mk3 (v1 0 * DAMPING) (v1 1 * DAMPING) (v1 2 * DAMPING)
      pure (mk3 (pos 0 + v2 0) (pos 1 + v2 1) (pos 2 + v2 2), v2)
    else
      let v2 : V3 := mk3 (vel 0 * DAMPING) (vel 1 * DAMPING) (vel 2 * DAMPING)
      pure (mk3 (pos 0 + v2 0) (pos 1 + v2 1) (pos 2 + v2 2), v2)
  else
    let d := distTo pos tExp
    if d > 0.01 then do
      let u0 ← divGuard (tExp 0 - pos 0) d
      let u1 ← divGuard (tExp 1 - pos 1) d
      let u2 ← divGuard (tExp 2 - pos 2) d
      let v1 : V3 := mk3 (vel 0 + u0 * EXPLOSION_STRENGTH)
                         (vel 1 + u1 * EXPLOSION_STRENGTH)
                         (vel 2 + u2 * EXPLOSION_STRENGTH)
      let vj : V3 := mk3 (v1 0 + (jit 0 - 0.5) * BROWN_MOTION)
                         (v1 1 + (jit 1 - 0.5) * BROWN_MOTION)
                         (v1 2 + (jit 2 - 0.5) * BROWN_MOTION)
      let v2 : V3 := mk3 (vj 0 * DAMPING) (vj 1 * DAMPING) (vj 2 * DAMPING)
      pure (mk3 (pos 0 + v2 0) (pos 1 + v2 1) (pos 2 + v2 2), v2)
    else
      let vj : V3 := mk3 (vel 0 + (jit 0 - 0.5) * BROWN_MOTION)
                         (vel 1 + (jit 1 - 0.5) * BROWN_MOTION)
                         (vel 2 + (jit 2 - 0.5) * BROWN_MOTION)
      let v2 : V3 := mk3 (vj 0 * DAMPING) (vj 1 * DAMPING) (vj 2 * DAMPING)
      pure (mk3 (pos 0 + v2 0) (pos 1 + v2 1) (pos 2 + v2 2), v2)

/-- Iterating the `animate` particle update with `pinchStrength` held at `1`
(the scenario of claim C2: the tree branch is taken every frame). -/
def treeOrbit (tTree tExp : V3) (jit : Fin 3 → ℝ) (s0 : V3 × V3) : ℕ → V3 × V3
  | 0 => s0
  | n + 1 =>
      let s := treeOrbit tTree tExp jit s0 n
      animateStep 1 tTree tExp jit s.1 s.2

/-- The tree-branch update at `pinchStrength = 1`, written with Euclidean
vector operations.  Proved equal to `animateStep 1` below and used for the
stability analysis of claim C2. -/
def dyn (t : E3) (s : E3 × E3) : E3 × E3 :=
  let d := ‖t - s.1‖
  let v' := if d > 0.01 then (0.9 : ℝ) • (s.2 + (0.35 / d) • (t - s.1))
            else (0.9 : ℝ) • s.2
  (s.1 + v', v')

/-- Iterates of `dyn`. -/
def dynOrbit (t : E3) (s0 : E3 × E3) : ℕ → E3 × E3
  | 0 => s0
  | n + 1 => dyn t (dynOrbit t s0 n)

/-! ### Target generation (init effect, `GestureTree.tsx` lines 185–256) -/

/-- The deterministic hash used for the exploded cloud
(`GestureTree.tsx` lines 77–80):
`n = sin(x*12.9898 + y*78.233 + z*37.719) * 43758.5453; return n - floor(n)`. -/
def noise3D (x y z : ℝ) : ℝ :=
  let n := Real.sin (x * 12.9898 + y * 78.233 + z * 37.719) * 43758.5453
  n - ⌊n⌋

/-- Particle `i`'s exploded target (lines 243–251): each axis uses `noise3D`
with `i` in a different slot, recentred by `0.5` and scaled by `spread = 60`. -/
def mkTargetExploded (i : ℕ) : V3 :=
  mk3 ((noise3D i 0 0 - 0.5) * 60)
      ((noise3D 0 i 0 - 0.5) * 60)
      ((noise3D 0 0 i - 0.5) * 60)

/-- The noise function as claim C3 words it:
`frac(sin(12.9898x + 78.233y + 37.719z) * 43758.5453)`. -/
def specNoise3D (x y z : ℝ) : ℝ :=
  Int.fract (Real.sin (12.9898 * x + 78.233 * y + 37.719 * z) * 43758.5453)

/-- The exploded target as claim C3 words it:
`(noise3D(i,0,0)-0.5, noise3D(0,i,0)-0.5, noise3D(0,0,i)-0.5)` multiplied by
the spread `60`. -/
def specTargetExploded (i : ℕ) : V3 :=
  (60 : ℝ) • mk3 (specNoise3D i 0 0 - 0.5)
                 (specNoise3D 0 i 0 - 0.5)
                 (specNoise3D 0 0 i - 0.5)

/-- Golden-angle increment used for the angular spread (lines 202, 227). -/
def GOLDEN_ANGLE : ℝ := 2.399963229728653

/-- Particle `i`'s tree target (lines 185–241), translated statement by
statement.  `H`/`R` are `TREE_HEIGHT`/`TREE_RADIUS` (25/10 on desktop, 20/8
on mobile), `N` is `PARTICLE_COUNT`, and the five reals are the successive
`Math.random()` draws: the branch check, the redistribution draw, the radius
draw, the y-jitter draw and the depth-jitter draw. -/
def mkTreeTarget (H R : ℝ) (i N : ℕ) (rCheck rLayer rRadius rY rDepth : ℝ) : V3 :=
  let layerPct : ℝ := (i : ℝ) / (N : ℝ)
  if rCheck > 1 - layerPct * 0.7 then
    let redistributedPct := rLayer * 0.5
    let layerIndex : ℤ := ⌊redistributedPct * 12⌋
    let normalizedY : ℝ := (layerIndex : ℝ) / 12
    let linearFactor := 1 - normalizedY
    let curvedFactor := (1 - normalizedY) ^ (1.3 : ℝ)
    let layerRadiusMax := R * (linearFactor * 0.8 + curvedFactor * 0.2)
    let angle := (i : ℝ) * GOLDEN_ANGLE
    let r := layerRadiusMax * Real.sqrt rRadius
    let y := -H / 2 + normalizedY * H - r * 0.4
    let yRandomness := (rY - 0.5) * 0.6
    let depthJitter := (rDepth - 0.5) * (0.8 + normalizedY * 1.2)
    mk3 (Real.cos angle * r + depthJitter * 0.3)
        (y + yRandomness)
        (Real.sin angle * r + depthJitter * 0.3)
  else
    let layerIndex : ℤ := ⌊layerPct * 12⌋
    let normalizedY : ℝ := (layerIndex : ℝ) / 12
    let linearFactor := 1 - normalizedY
    let curvedFactor := (1 - normalizedY) ^ (1.3 : ℝ)
    let layerRadiusMax := R * (linearFactor * 0.8 + curvedFactor * 0.2)
    let minRadius : ℝ := 0.2
    let finalRadius := max minRadius layerRadiusMax
    let angle := (i : ℝ) * GOLDEN_ANGLE
    let r := finalRadius * Real.sqrt rRadius
    let y := -H / 2 + normalizedY * H - r * 0.4
    let yRandomness := (rY - 0.5) * 0.6
    let depthJitter := (rDepth - 0.5) * (0.8 + normalizedY * 1.2)
    mk3 (Real.cos angle * r + depthJitter * 0.3)
        (y + yRandomness)
        (Real.sin angle * r + depthJitter * 0.3)

/-- The tree target as claim C4 words it: choose the layer fraction (fresh
random draw or the deterministic `i/N`), map it directly through the blended
falloff `R * ((1-f)*0.8 + (1-f)^1.3*0.2)` to get the layer's maximum radius,
sample `r = maxRadius * sqrt(random())`, use the golden angle, apply droop
and jitter.  The constants the claim leaves unnamed (vertical placement,
droop factor `0.4`, jitter scales) are taken from the source; the definition
differs from the source only where the claim's words do: no quantization of
the layer fraction into twelfths, and no lower clamp on the radius. -/
def claimTreeTarget (H R : ℝ) (i N : ℕ) (rCheck freshFrac rRadius rY rDepth : ℝ) : V3 :=
  let layerFrac : ℝ :=
    if rCheck > 1 - ((i : ℝ) / (N : ℝ)) * 0.7 then freshFrac else (i : ℝ) / (N : ℝ)
  let maxRadius := R * ((1 - layerFrac) * 0.8 + (1 - layerFrac) ^ (1.3 : ℝ) * 0.2)
  let r := maxRadius * Real.sqrt rRadius
  let angle := (i : ℝ) * GOLDEN_ANGLE
  let droop := r * 0.4
  let y := -H / 2 + layerFrac * H - droop
  let yRandomness := (rY - 0.5) * 0.6
  let depthJitter := (rDepth - 0.5) * (0.8 + layerFrac * 1.2)
  mk3 (Real.cos angle * r + depthJitter * 0.3)
      (y + yRandomness)
      (Real.sin angle * r + depthJitter * 0.3)

/-- The amended form of claim C4: the chosen layer fraction is quantized
down to a multiple of `1/12` (the 12 discrete layers of the source) before
the blended falloff is applied.  Everything else is as in `claimTreeTarget`.
The source's additional lower clamp `max(0.2, ·)` of the deterministic
branch is a no-op whenever `R ≥ 3` and `i < N`, so it does not appear. -/
def claimTreeTargetQuant (H R : ℝ) (i N : ℕ) (rCheck freshFrac rRadius rY rDepth : ℝ) : V3 :=
  let rawFrac : ℝ :=
    if rCheck > 1 - ((i : ℝ) / (N : ℝ)) * 0.7 then freshFrac else (i : ℝ) / (N : ℝ)
  let layerFrac : ℝ := ((⌊rawFrac * 12⌋ : ℤ) : ℝ) / 12
  let maxRadius := R * ((1 - layerFrac) * 0.8 + (1 - layerFrac) ^ (1.3 : ℝ) * 0.2)
  let r := maxRadius * Real.sqrt rRadius
  let angle := (i : ℝ) * GOLDEN_ANGLE
  let droop := r * 0.4
  let y := -H / 2 + layerFrac * H - droop
  let yRandomness := (rY - 0.5) * 0.6
  let depthJitter := (rDepth - 0.5) * (0.8 + layerFrac * 1.2)
  mk3 (Real.cos angle * r + depthJitter * 0.3)
      (y + yRandomness)
      (Real.sin angle * r + depthJitter * 0.3)

/-! ### Color themes (`changeTheme`, `GestureTree.tsx` lines 691–735)

A `THREE.Color` built from a hex literal `0xRRGGBB` has components
`RR/255, GG/255, BB/255`, and `multiplyScalar s` multiplies each component
by `s`; colors are triples `(r, g, b)` of reals here. -/

/-- `0xFFFFFF`. -/
def colorWhite : ℝ × ℝ × ℝ := (1, 1, 1)

/-- `0xFFD700`. -/
def colorGold : ℝ × ℝ × ℝ := (1, 215 / 255, 0)

/-- `0xFF6B6B`. -/
def colorRed : ℝ × ℝ × ℝ := (1, 107 / 255, 107 / 255)

/-- `0x4ECDC4`. -/
def colorGreen : ℝ × ℝ × ℝ := (78 / 255, 205 / 255, 196 / 255)

/-- `0x4169E1`. -/
def colorBlue : ℝ × ℝ × ℝ := (65 / 255, 105 / 255, 225 / 255)

/-- `0xC0C0C0`. -/
def colorSilver : ℝ × ℝ × ℝ := (192 / 255, 192 / 255, 192 / 255)

/-- `0xFF69B4`. -/
def colorPink : ℝ × ℝ × ℝ := (1, 105 / 255, 180 / 255)

/-- `0x9370DB`. -/
def colorPurple : ℝ × ℝ × ℝ := (147 / 255, 112 / 255, 219 / 255)

/-- `multiplyScalar`. -/
def cScale (s : ℝ) (c : ℝ × ℝ × ℝ) : ℝ × ℝ × ℝ := (s * c.1, s * c.2.1, s * c.2.2)

/-- The color drawn for one particle by `changeTheme` (lines 714–727), as a
function of the theme index and the particle's fresh `Math.random()` draw. -/
def themeColor (theme : ℕ) (r : ℝ) : ℝ × ℝ × ℝ :=
  if theme = 0 then
    if r > 0.7 then cScale 1.3 colorWhite
    else if r > 0.4 then cScale 1.5 colorGold
    else if r > 0.25 then cScale 1.2 colorRed
    else colorGreen
  else if theme = 1 then
    if r > 0.6 then cScale 1.4 colorWhite
    else if r > 0.3 then cScale 1.5 colorBlue
    else cScale 1.3 colorSilver
  else
    if r > 0.6 then cScale 1.4 colorWhite
    else if r > 0.3 then cScale 1.5 colorPink
    else cScale 1.3 colorPurple

/-- Theme cycling (line 692): `(colorThemeRef.current + 1) % 3`. -/
def nextTheme (cur : ℕ) : ℕ := (cur + 1) % 3

/-- The wholesale color reassignment of `changeTheme`: particle `i` gets a
color drawn from the new theme's thresholds using its own fresh draw
`rand i`; the old color array is not consulted. -/
def reassignColors (theme : ℕ) (rand : ℕ → ℝ) : ℕ → ℝ × ℝ × ℝ :=
  fun i => themeColor theme (rand i)

/-! ### Snow (`toggleSnow`, `GestureTree.tsx` lines 737–754)

The `setTimeout(..., 10000)` is modeled as an absolute deadline in seconds
(`now + 10`). -/

/-- Snow-effect state: the `isSnowingRef` flag, the snow particle system's
visibility, and the pending hide deadline, if any. -/
structure SnowState where
  snowing : Bool
  visible : Bool
  hideAt : Option ℝ

/-- `toggleSnow`: a no-op while already snowing; otherwise set the flag,
reveal the snow and schedule the hide 10 seconds from now. -/
def toggleSnow (now : ℝ) (s : SnowState) : SnowState :=
  if s.snowing then s
  else { snowing := true, visible := true, hideAt := some (now + 10) }

/-- The body of the 10-second timer: clear the flag and hide the snow. -/
def snowTimerFire (_s : SnowState) : SnowState :=
  { snowing := false, visible := false, hideAt := none }

/-! ### Fireworks (`launchFireworks` lines 756–832, update lines 514–566) -/

/-- One layer's spawn parameters `(count, speed, size, delay)` as pushed by
`launchFireworks` (lines 765–769), for mobile or desktop. -/
def fwLayers (mobile : Bool) : List (ℕ × ℝ × ℝ × ℝ) :=
  [(if mobile then 60 else 200, 0.8, 0.8, 0),
   (if mobile then 45 else 150, 0.5, 0.6, 0.1),
   (if mobile then 30 else 100, 0.3, 0.4, 0.2)]

/-- Every firework is created with `lifetime: 3.0` (line 827). -/
def fwLifetime : ℝ := 3.0

/-- The opacity written for a firework of the given age (lines 562–564):
`1.0` while `age/lifetime < 0.7`, then a linear decay hitting `0` at
`age = lifetime`. -/
def fwOpacity (age : ℝ) : ℝ :=
  if age / fwLifetime < 0.7 then 1.0 else 1 - (age / fwLifetime - 0.7) / 0.3

/-- The per-frame age bookkeeping of the fireworks update (lines 516–525):
the age grows by the fixed tick `0.016`; if it then exceeds the lifetime the
firework is deactivated and its resources released (`none`), otherwise it
stays active with the new age. -/
def fwUpdateAge (age : ℝ) : Option ℝ :=
  if age + 0.016 > fwLifetime then none else some (age + 0.016)

/-! ### Rotation control (lines 568–579 and 624–634) -/

/-- Rotation state: `rotationCurrentRef` and `rotationTargetRef`, each a
pair of x/y angles. -/
structure RotState where
  curX : ℝ
  curY : ℝ
  tgtX : ℝ
  tgtY : ℝ

/-- Both refs start at `{x: 0, y: 0}` (lines 92–93). -/
def rotInit : RotState := ⟨0, 0, 0, 0⟩

/-- `handleMouseMove` while dragging with the tree formed (lines 624–634):
the screen-space deltas, scaled by `0.01`, are added to
`rotationCurrentRef` (`deltaX` to the y angle, `deltaY` to the x angle). -/
def handleMouseMove (deltaX deltaY : ℝ) (s : RotState) : RotState :=
  { s with curY := s.curY + deltaX * 0.01, curX := s.curX + deltaY * 0.01 }

/-- The per-frame rotation control of `animate` (lines 568–579): when the
tree is active and no drag is in progress, `rotationCurrentRef.y` advances
by `0.005`; then the group's rotation is assigned directly from
`rotationCurrentRef`.  Returns the new state and the `(x, y)` rotation
written to the tree group. -/
def rotationFrame (isTreeActive isDragging : Bool) (s : RotState) : RotState × ℝ × ℝ :=
  let s' := if isTreeActive && !isDragging then { s with curY := s.curY + 0.005 } else s
  (s', (s'.curX, s'.curY))

/-! ### The whole per-frame particle pass (claim C10) -/

/-- The parallel per-particle arrays of the main particle system
(lines 113–118 and 168–287), indexed by particle id. -/
structure ParticleArrays where
  pos : ℕ → V3
  vel : ℕ → V3
  targetTree : ℕ → V3
  targetExploded : ℕ → V3
  colors : ℕ → ℝ × ℝ × ℝ
  sizes : ℕ → ℝ
  alphas : ℕ → ℝ

/-- One pass of the integrator loop (lines 418–471) over all particles:
each particle's position and velocity are replaced by its `animateStep`
result; no other array is written. -/
def integratorPass (pinch : ℝ) (jit : ℕ → Fin 3 → ℝ) (s : ParticleArrays) : ParticleArrays :=
  { s with
    pos := fun i =>
      (animateStep pinch (s.targetTree i) (s.targetExploded i) (jit i) (s.pos i) (s.vel i)).1,
    vel := fun i =>
      (animateStep pinch (s.targetTree i) (s.targetExploded i) (jit i) (s.pos i) (s.vel i)).2 }

/-! ## Basic component lemmas -/

@[simp] theorem mk3_app_zero (a b c : ℝ) : mk3 a b c 0 = a := rfl

@[simp] theorem mk3_app_one (a b c : ℝ) : mk3 a b c 1 = b := rfl

@[simp] theorem mk3_app_two (a b c : ℝ) : mk3 a b c 2 = c := rfl

@[simp] theorem toE_apply (v : V3) (i : Fin 3) : toE v i = v i := rfl

theorem norm_toE (v : V3) : ‖toE v‖ = Real.sqrt (v 0 ^ 2 + v 1 ^ 2 + v 2 ^ 2) := by
  rw [EuclideanSpace.norm_eq]
  simp [Fin.sum_univ_three, Real.norm_eq_abs, sq_abs]

theorem distTo_eq_norm (p t : V3) : distTo p t = ‖toE t - toE p‖ := by
  have h : toE t - toE p = toE (t - p) := rfl
  rw [h, norm_toE]
  simp [distTo, Pi.sub_apply]

theorem distTo_nonneg (p t : V3) : 0 ≤ distTo p t := Real.sqrt_nonneg _

/-! ## C10: the integrator pass touches only positions and velocities -/

/-- C10: a single pass of the per-frame particle integrator replaces only
the live position array and the velocity array (each particle by its
`animateStep` result); the tree-target, exploded-target, color, size and
alpha arrays are returned unchanged. -/
theorem integratorPass_writes_only_pos_vel :
    ∀ (pinch : ℝ) (jit : ℕ → Fin 3 → ℝ) (s : ParticleArrays),
      (integratorPass pinch jit s).targetTree = s.targetTree ∧
      (integratorPass pinch jit s).targetExploded = s.targetExploded ∧
      (integratorPass pinch jit s).colors = s.colors ∧
      (integratorPass pinch jit s).sizes = s.sizes ∧
      (integratorPass pinch jit s).alphas = s.alphas ∧
      (∀ i, (integratorPass pinch jit s).pos i =
        (animateStep pinch (s.targetTree i) (s.targetExploded i) (jit i)
          (s.pos i) (s.vel i)).1) ∧
      (∀ i, (integratorPass pinch jit s).vel i =
        (animateStep pinch (s.targetTree i) (s.targetExploded i) (jit i)
          (s.pos i) (s.vel i)).2) :=
  fun _ _ _ => ⟨rfl, rfl, rfl, rfl, rfl, fun _ => rfl, fun _ => rfl⟩

/-! ## C8: snow trigger -/

/-- C8: a snow trigger while inactive reveals the snow and schedules the
hide exactly 10 seconds later (one timed window per trigger, closed by
`snowTimerFire`); a second trigger while the window is active is a no-op
that changes no state. -/
theorem toggleSnow_spec :
    (∀ (now : ℝ) (s : SnowState), s.snowing = true → toggleSnow now s = s) ∧
    (∀ (now : ℝ) (s : SnowState), s.snowing = false →
      toggleSnow now s = ⟨true, true, some (now + 10)⟩) ∧
    (∀ s, snowTimerFire s = ⟨false, false, none⟩) := by
  refine ⟨?_, ?_, fun s => rfl⟩ <;> intro now s h <;> simp [toggleSnow, h]

/-- Concrete instance of `toggleSnow_spec`: a trigger at time 5 while
inactive opens the 10-second window, and a second trigger during the window
changes nothing. -/
theorem toggleSnow_spec_witness :
    toggleSnow 7 ⟨true, true, some 15⟩ = ⟨true, true, some 15⟩ ∧
    toggleSnow 5 ⟨false, false, none⟩ = ⟨true, true, some (5 + 10)⟩ :=
  ⟨toggleSnow_spec.1 7 _ rfl, toggleSnow_spec.2.1 5 _ rfl⟩

/-! ## C9: rotation control -/

/-- C9 counterexample: the claim says each drag delta scaled by `0.01` is
accumulated into the rotation *target*; in the source `handleMouseMove`
writes `rotationCurrentRef` and never touches `rotationTargetRef`, so after
a drag delta of 5 pixels the target y angle is not `tgtY + 5 * 0.01`. -/
theorem rotation_target_cex :
    ¬ (handleMouseMove 5 0 rotInit).tgtY = rotInit.tgtY + 5 * 0.01 := by
  simp only [handleMouseMove, rotInit]
  norm_num

/-- C9 (amended): drag deltas scaled by `0.01` accumulate directly into the
*current* rotation (`deltaX` into the y angle, `deltaY` into the x angle)
leaving the rotation target untouched; when the tree is active and no drag
is in progress the current y rotation auto-advances by `0.005` per frame;
and every frame the group's live rotation is assigned directly from the
current rotation (no easing, no smoothing lag). -/
theorem rotation_control_spec :
    (∀ (dx dy : ℝ) (s : RotState),
      handleMouseMove dx dy s =
        ⟨s.curX + dy * 0.01, s.curY + dx * 0.01, s.tgtX, s.tgtY⟩) ∧
    (∀ s : RotState, rotationFrame true false s =
      (⟨s.curX, s.curY + 0.005, s.tgtX, s.tgtY⟩, (s.curX, s.curY + 0.005))) ∧
    (∀ (act : Bool) (s : RotState), rotationFrame act true s = (s, (s.curX, s.curY))) ∧
    (∀ s : RotState, rotationFrame false false s = (s, (s.curX, s.curY))) := by
  refine ⟨fun dx dy s => rfl, fun s => rfl, fun act s => ?_, fun s => rfl⟩
  cases act <;> rfl

/-! ## C7: fireworks layers, opacity schedule, deactivation -/

/-- C7: a desktop fireworks trigger spawns exactly 3 layers with particle
counts `[200, 150, 100]` (total 450) and staggered delays `0`, `0.1`, `0.2`
seconds; a layer's opacity stays `1.0` until 70% of the 3-second lifetime
(`age < 2.1`), then decays linearly, staying positive before `age = 3` and
reaching `0` exactly at `age = 3`; and the per-frame age update deactivates
and removes a firework exactly when its age passes the 3-second lifetime. -/
theorem fireworks_spec :
    (fwLayers false).map (fun l => l.1) = [200, 150, 100] ∧
    ((fwLayers false).map (fun l => l.1)).sum = 450 ∧
    (fwLayers false).map (fun l => l.2.2.2) = [0, 0.1, 0.2] ∧
    (fwLayers false).length = 3 ∧
    (∀ a : ℝ, 0 ≤ a → a < 2.1 → fwOpacity a = 1) ∧
    (∀ a : ℝ, 2.1 ≤ a → fwOpacity a = 1 - (a / 3 - 0.7) / 0.3) ∧
    fwOpacity 3 = 0 ∧
    (∀ a : ℝ, 0 ≤ a → a < 3 → 0 < fwOpacity a) ∧
    (∀ a : ℝ, fwLifetime < a + 0.016 → fwUpdateAge a = none) ∧
    (∀ a : ℝ, a + 0.016 ≤ fwLifetime → fwUpdateAge a = some (a + 0.016)) := by
  have hOp : ∀ a : ℝ, fwOpacity a =
      if a / 3 < 0.7 then 1 else 1 - (a / 3 - 0.7) / 0.3 := by
    intro a
    rw [fwOpacity, fwLifetime]
    norm_num
  refine ⟨rfl, by norm_num [fwLayers], rfl, rfl, ?_, ?_, ?_, ?_, ?_, ?_⟩
  · intro a _ ha
    rw [hOp, if_pos (by linarith)]
  · intro a ha
    rw [hOp, if_neg (not_lt.mpr (by linarith))]
  · rw [fwOpacity, fwLifetime]
    norm_num
  · intro a _ ha
    rw [hOp]
    split_ifs with h
    · norm_num
    · rw [not_lt] at h
      have h1 : (a / 3 - 0.7) / 0.3 < 1 := by
        rw [div_lt_one (by norm_num)]
        linarith
      linarith
  · intro a ha
    rw [fwUpdateAge, if_pos ha]
  · intro a ha
    rw [fwUpdateAge, if_neg (not_lt.mpr ha)]

/-- Concrete instances of `fireworks_spec`: opacity is still `1` at age 1,
follows the linear decay at age `2.4`, is positive there, and the age
update removes a firework stepping past `3` seconds but keeps one at `1`. -/
theorem fireworks_spec_witness :
    fwOpacity 1 = 1 ∧
    fwOpacity 2.4 = 1 - (2.4 / 3 - 0.7) / 0.3 ∧
    0 < fwOpacity 2.4 ∧
    fwUpdateAge 2.99 = none ∧
    fwUpdateAge 1 = some (1 + 0.016) := by
  obtain ⟨-, -, -, -, h5, h6, -, h8, h9, h10⟩ := fireworks_spec
  exact ⟨h5 1 (by norm_num) (by norm_num), h6 2.4 (by norm_num),
    h8 2.4 (by norm_num) (by norm_num),
    h9 2.99 (by rw [fwLifetime]; norm_num), h10 1 (by rw [fwLifetime]; norm_num)⟩

/-! ## C3: exploded targets are a deterministic hash of the index -/

/-- C3: the exploded target of particle `i` is exactly
`((noise3D i 0 0 - 0.5), (noise3D 0 i 0 - 0.5), (noise3D 0 0 i - 0.5))`
scaled by the spread 60, where `noise3D` agrees with the claimed
`frac(sin(12.9898x + 78.233y + 37.719z) * 43758.5453)` and always lands in
`[0, 1)`.  Both sides are pure functions of `i` alone, so regenerating the
array reproduces identical values. -/
theorem targetExploded_spec :
    (∀ i : ℕ, mkTargetExploded i = specTargetExploded i) ∧
    (∀ x y z : ℝ, noise3D x y z = specNoise3D x y z) ∧
    (∀ x y z : ℝ, 0 ≤ noise3D x y z ∧ noise3D x y z < 1) := by
  have hn : ∀ x y z : ℝ, noise3D x y z = specNoise3D x y z := by
    intro x y z
    have harg : x * 12.9898 + y * 78.233 + z * 37.719 =
        12.9898 * x + 78.233 * y + 37.719 * z := by ring
    rw [noise3D, specNoise3D, harg, Int.fract]
  refine ⟨?_, hn, ?_⟩
  · intro i
    funext k
    fin_cases k <;>
      simp [mkTargetExploded, specTargetExploded, hn, Pi.smul_apply, smul_eq_mul] <;>
      ring
  · intro x y z
    rw [hn]
    exact ⟨Int.fract_nonneg _, Int.fract_lt_one _⟩

/-! ## C1: the per-frame particle update -/

/-- C1: every frame, every particle is updated exactly as claimed: the
active target is the tree target iff `pinchStrength > 0.01`; when the
distance to it exceeds `0.01` the unit vector toward the target, scaled by
`0.35 * pinchStrength` (tree branch) or the flat `0.25` (exploded branch),
is added to the velocity; the exploded branch alone additionally adds the
per-axis jitter `(rand - 0.5) * 0.03`, which is bounded by `±0.015` for
draws in `[0, 1]`; the velocity is then damped by `0.90` on both branches,
and the position advances by the damped velocity. -/
theorem animateStep_eq_spec :
    ∀ (pinch : ℝ) (tTree tExp : V3) (jit : Fin 3 → ℝ) (pos vel : V3),
      animateStep pinch tTree tExp jit pos vel =
        specIntegrate pinch tTree tExp (fun k => (jit k - 0.5) * BROWN_MOTION) pos vel ∧
      (∀ k : Fin 3, 0 ≤ jit k → jit k ≤ 1 →
        |(jit k - 0.5) * BROWN_MOTION| ≤ 0.015) := by
  intro pinch tT tE j p v
  constructor
  · rw [animateStep, specIntegrate, GRAVITY_STRENGTH, EXPLOSION_STRENGTH,
      DAMPING, BROWN_MOTION]
    by_cases h1 : pinch > 0.01
    · simp only [if_pos h1]
      by_cases h2 : distTo p tT > 0.01
      · simp only [if_pos h2, Prod.ext_iff]
        constructor <;> funext k <;> fin_cases k <;>
          simp [Pi.add_apply, Pi.smul_apply, Pi.sub_apply, smul_eq_mul] <;> ring
      · simp only [if_neg h2, Prod.ext_iff]
        constructor <;> funext k <;> fin_cases k <;>
          simp [Pi.add_apply, Pi.smul_apply, Pi.sub_apply, smul_eq_mul] <;> ring
    · simp only [if_neg h1]
      by_cases h2 : distTo p tE > 0.01
      · simp only [if_pos h2, Prod.ext_iff]
        constructor <;> funext k <;> fin_cases k <;>
          simp [Pi.add_apply, Pi.smul_apply, Pi.sub_apply, smul_eq_mul] <;> ring
      · simp only [if_neg h2, Prod.ext_iff]
        constructor <;> funext k <;> fin_cases k <;>
          simp [Pi.add_apply, Pi.smul_apply, Pi.sub_apply, smul_eq_mul] <;> ring
  · intro k h0 h1
    rw [BROWN_MOTION, abs_mul]
    have : |j k - 0.5| ≤ 0.5 := by
      rw [abs_le]
      constructor <;> linarith
    calc |j k - 0.5| * |(0.03 : ℝ)| ≤ 0.5 * 0.03 := by
          rw [abs_of_pos (by norm_num : (0:ℝ) < 0.03)]
          exact mul_le_mul this le_rfl (by norm_num) (by norm_num)
      _ = 0.015 := by norm_num

/-- Concrete instance of `animateStep_eq_spec`: the update equals the
claimed update at a concrete state, and the jitter drawn from `0.5` is
within `±0.015`. -/
theorem animateStep_eq_spec_witness :
    animateStep 1 (mk3 1 2 3) (mk3 0 0 0) (fun _ => 0.5) (mk3 0 0 0) (mk3 0 0 0) =
      specIntegrate 1 (mk3 1 2 3) (mk3 0 0 0)
        (fun k => ((fun _ : Fin 3 => (0.5 : ℝ)) k - 0.5) * BROWN_MOTION)
        (mk3 0 0 0) (mk3 0 0 0) ∧
    |((fun _ : Fin 3 => (0.5 : ℝ)) 0 - 0.5) * BROWN_MOTION| ≤ 0.015 := by
  obtain ⟨h1, h2⟩ :=
    animateStep_eq_spec 1 (mk3 1 2 3) (mk3 0 0 0) (fun _ => 0.5) (mk3 0 0 0) (mk3 0 0 0)
  exact ⟨h1, h2 0 (by norm_num) (by norm_num)⟩

/-! ## C5: every normalization is guarded, so the step is total -/

/-- C5: the checked integrator step, in which every division refuses a
divisor of magnitude at most `0.01`, never fails: in both branches the
direction normalization only runs under the guard `dist > 0.01`, so the
per-frame update is total and agrees with the unchecked step on every
input. -/
theorem animateStepChecked_total :
    ∀ (pinch : ℝ) (tTree tExp : V3) (jit : Fin 3 → ℝ) (pos vel : V3),
      animateStepChecked pinch tTree tExp jit pos vel =
        some (animateStep pinch tTree tExp jit pos vel) := by
  intro pinch tT tE j p v
  have hT : |distTo p tT| = distTo p tT := abs_of_nonneg (Real.sqrt_nonneg _)
  have hE : |distTo p tE| = distTo p tE := abs_of_nonneg (Real.sqrt_nonneg _)
  rw [animateStepChecked, animateStep]
  by_cases h1 : pinch > 0.01
  · simp only [if_pos h1]
    by_cases h2 : distTo p tT > 0.01
    · simp only [if_pos h2]
      simp [divGuard, hT, h2]
    · simp only [if_neg h2]
      rfl
  · simp only [if_neg h1]
    by_cases h2 : distTo p tE > 0.01
    · simp only [if_pos h2]
      simp [divGuard, hE, h2]
    · simp only [if_neg h2]
      rfl

/-! ## C6: theme change -/

/-- C6 counterexample: the claim says a theme switch leaves every particle
with one of exactly 3 (or fewer) palette entries; theme 0 draws from four
pairwise-distinct colors (bright white, gold, red, green — witnessed by the
draws 0.8, 0.5, 0.3, 0.1), so no 3-element palette covers its output. -/
theorem themeZero_palette_cex :
    ¬ ∃ S : Finset (ℝ × ℝ × ℝ), S.card ≤ 3 ∧
        ∀ r : ℝ, 0 ≤ r → r < 1 → themeColor 0 r ∈ S := by
  rintro ⟨S, hcard, hmem⟩
  have h1 : cScale 1.3 colorWhite ∈ S := by
    have h := hmem 0.8 (by norm_num) (by norm_num)
    rw [themeColor] at h
    norm_num at h ⊢
    exact h
  have h2 : cScale 1.5 colorGold ∈ S := by
    have h := hmem 0.5 (by norm_num) (by norm_num)
    rw [themeColor] at h
    norm_num at h ⊢
    exact h
  have h3 : cScale 1.2 colorRed ∈ S := by
    have h := hmem 0.3 (by norm_num) (by norm_num)
    rw [themeColor] at h
    norm_num at h ⊢
    exact h
  have h4 : colorGreen ∈ S := by
    have h := hmem 0.1 (by norm_num) (by norm_num)
    rw [themeColor] at h
    norm_num at h ⊢
    exact h
  classical
  have hsub : ({cScale 1.3 colorWhite, cScale 1.5 colorGold,
      cScale 1.2 colorRed, colorGreen} : Finset (ℝ × ℝ × ℝ)) ⊆ S := by
    intro x hx
    simp only [Finset.mem_insert, Finset.mem_singleton] at hx
    rcases hx with rfl | rfl | rfl | rfl <;> assumption
  have hfour : ({cScale 1.3 colorWhite, cScale 1.5 colorGold,
      cScale 1.2 colorRed, colorGreen} : Finset (ℝ × ℝ × ℝ)).card = 4 := by
    rw [Finset.card_insert_of_not_mem, Finset.card_insert_of_not_mem,
      Finset.card_insert_of_not_mem, Finset.card_singleton]
    · simp only [Finset.mem_singleton, cScale, colorRed, colorGreen, Prod.ext_iff]
      norm_num
    · simp only [Finset.mem_insert, Finset.mem_singleton, cScale, colorGold,
        colorRed, colorGreen, Prod.ext_iff]
      norm_num
    · simp only [Finset.mem_insert, Finset.mem_singleton, cScale, colorWhite,
        colorGold, colorRed, colorGreen, Prod.ext_iff]
      norm_num
  have hle := Finset.card_le_card hsub
  rw [hfour] at hle
  omega

/-- C6 (amended): a theme change reassigns every particle's color by an
independent fresh draw through the new theme's ordered thresholds (theme 0:
`> 0.7` bright white, `> 0.4` gold, `> 0.25` red, else green; theme 1:
`> 0.6` white, `> 0.3` blue, else silver; theme 2: `> 0.6` white, `> 0.3`
pink, else purple), with no interpolation with the old color (the old array
is never read); afterwards every color is one of the new theme's palette
entries — 4 of them for theme 0, 3 for themes 1 and 2 — so no old-theme-only
color survives. -/
theorem themeColor_spec :
    (∀ r : ℝ, themeColor 0 r ∈
      [cScale 1.3 colorWhite, cScale 1.5 colorGold, cScale 1.2 colorRed, colorGreen]) ∧
    (∀ r : ℝ, themeColor 1 r ∈
      [cScale 1.4 colorWhite, cScale 1.5 colorBlue, cScale 1.3 colorSilver]) ∧
    (∀ r : ℝ, themeColor 2 r ∈
      [cScale 1.4 colorWhite, cScale 1.5 colorPink, cScale 1.3 colorPurple]) ∧
    (∀ r : ℝ, r > 0.7 → themeColor 0 r = cScale 1.3 colorWhite) ∧
    (∀ r : ℝ, r ≤ 0.7 → r > 0.4 → themeColor 0 r = cScale 1.5 colorGold) ∧
    (∀ r : ℝ, r ≤ 0.4 → r > 0.25 → themeColor 0 r = cScale 1.2 colorRed) ∧
    (∀ r : ℝ, r ≤ 0.25 → themeColor 0 r = colorGreen) ∧
    (∀ r : ℝ, r > 0.6 → themeColor 1 r = cScale 1.4 colorWhite) ∧
    (∀ r : ℝ, r ≤ 0.6 → r > 0.3 → themeColor 1 r = cScale 1.5 colorBlue) ∧
    (∀ r : ℝ, r ≤ 0.3 → themeColor 1 r = cScale 1.3 colorSilver) ∧
    (∀ r : ℝ, r > 0.6 → themeColor 2 r = cScale 1.4 colorWhite) ∧
    (∀ r : ℝ, r ≤ 0.6 → r > 0.3 → themeColor 2 r = cScale 1.5 colorPink) ∧
    (∀ r : ℝ, r ≤ 0.3 → themeColor 2 r = cScale 1.3 colorPurple) ∧
    (∀ (t : ℕ) (rand : ℕ → ℝ) (i : ℕ), reassignColors t rand i = themeColor t (rand i)) := by
  refine ⟨?_, ?_, ?_, ?_, ?_, ?_, ?_, ?_, ?_, ?_, ?_, ?_, ?_, fun t rand i => rfl⟩
  · intro r
    rw [themeColor, if_pos rfl]
    split_ifs <;> simp
  · intro r
    rw [themeColor, if_neg (by norm_num), if_pos rfl]
    split_ifs <;> simp
  · intro r
    rw [themeColor, if_neg (by norm_num), if_neg (by norm_num)]
    split_ifs <;> simp
  · intro r h
    rw [themeColor, if_pos rfl, if_pos h]
  · intro r h h2
    rw [themeColor, if_pos rfl, if_neg (not_lt.mpr h), if_pos h2]
  · intro r h h2
    rw [themeColor, if_pos rfl, if_neg (not_lt.mpr (le_trans h (by norm_num))),
      if_neg (not_lt.mpr h), if_pos h2]
  · intro r h
    rw [themeColor, if_pos rfl, if_neg (not_lt.mpr (le_trans h (by norm_num))),
      if_neg (not_lt.mpr (le_trans h (by norm_num))), if_neg (not_lt.mpr h)]
  · intro r h
    rw [themeColor, if_neg (by norm_num), if_pos rfl, if_pos h]
  · intro r h h2
    rw [themeColor, if_neg (by norm_num), if_pos rfl, if_neg (not_lt.mpr h), if_pos h2]
  · intro r h
    rw [themeColor, if_neg (by norm_num), if_pos rfl,
      if_neg (not_lt.mpr (le_trans h (by norm_num))), if_neg (not_lt.mpr h)]
  · intro r h
    rw [themeColor, if_neg (by norm_num), if_neg (by norm_num), if_pos h]
  · intro r h h2
    rw [themeColor, if_neg (by norm_num), if_neg (by norm_num),
      if_neg (not_lt.mpr h), if_pos h2]
  · intro r h
    rw [themeColor, if_neg (by norm_num), if_neg (by norm_num),
      if_neg (not_lt.mpr (le_trans h (by norm_num))), if_neg (not_lt.mpr h)]

/-- Concrete instances of `themeColor_spec`: the draws 0.5, 0.5 and 0.1
land on gold, blue and purple under themes 0, 1, 2 respectively. -/
theorem themeColor_spec_witness :
    themeColor 0 0.5 = cScale 1.5 colorGold ∧
    themeColor 1 0.5 = cScale 1.5 colorBlue ∧
    themeColor 2 0.1 = cScale 1.3 colorPurple := by
  obtain ⟨-, -, -, -, hGold, -, -, -, hBlue, -, -, -, hPurple, -⟩ := themeColor_spec
  exact ⟨hGold 0.5 (by norm_num) (by norm_num),
    hBlue 0.5 (by norm_num) (by norm_num), hPurple 0.1 (by norm_num)⟩

/-! ## C4: tree target generation -/

/-- C4 counterexample: the claim maps the deterministic layer fraction
`i/N` directly through the blended falloff, but the source first quantizes
it to `floor(fraction * 12) / 12` (12 discrete layers).  For particle
`i = 4999` of `N = 5000` (desktop `H = 25`, `R = 10`), a branch draw of
`0.1` (deterministic branch) and a radius draw of `0`, the source places
the particle at layer `11/12` — y component `-12.5 + (11/12)*25` — while
the claim's recipe places it at fraction `0.9998` — y component
`-12.5 + 0.9998*25` — so the two targets differ. -/
theorem treeTarget_quantization_cex :
    mkTreeTarget 25 10 4999 5000 0.1 0 0 0.5 0.5 ≠
      claimTreeTarget 25 10 4999 5000 0.1 (0 * 0.5) 0 0.5 0.5 := by
  have hcond : ¬ ((0.1 : ℝ) > 1 - ((4999 : ℕ) : ℝ) / ((5000 : ℕ) : ℝ) * 0.7) := by
    push_cast
    norm_num
  have hfloor : (⌊((4999 : ℕ) : ℝ) / ((5000 : ℕ) : ℝ) * 12⌋ : ℤ) = 11 := by
    push_cast
    rw [Int.floor_eq_iff]
    norm_num
  intro h
  have hy := congrFun h 1
  simp only [mkTreeTarget, claimTreeTarget, if_neg hcond, hfloor,
    Real.sqrt_zero, mul_zero, zero_mul, mk3_app_one] at hy
  push_cast at hy
  norm_num at hy

/-- C4 (amended): the tree target is generated exactly as the claim says,
except that the chosen layer fraction (fresh random `rLayer * 0.5`, or the
deterministic `i/N`) is first quantized down to a multiple of `1/12` — the
12 discrete layers — before the blended linear/power-1.3 falloff is
applied; the deterministic branch's additional lower clamp `max(0.2, ·)`
on the blended radius is a no-op for the program's tree radii (`R ≥ 3`)
and any in-range particle (`i < N`). -/
theorem treeTarget_spec (H R : ℝ) (i N : ℕ) (rCheck rLayer rRadius rY rDepth : ℝ)
    (hR : 3 ≤ R) (hiN : i < N) :
    mkTreeTarget H R i N rCheck rLayer rRadius rY rDepth =
      claimTreeTargetQuant H R i N rCheck (rLayer * 0.5) rRadius rY rDepth := by
  by_cases hb : rCheck > 1 - ((i : ℝ) / (N : ℝ)) * 0.7
  · simp only [mkTreeTarget, claimTreeTargetQuant, if_pos hb]
  · have hN : (0 : ℝ) < (N : ℝ) := by
      have : 0 < N := Nat.lt_of_le_of_lt (Nat.zero_le i) hiN
      exact_mod_cast this
    have h0 : (0 : ℝ) ≤ (i : ℝ) / (N : ℝ) := by positivity
    have h1 : (i : ℝ) / (N : ℝ) < 1 := by
      rw [div_lt_one hN]
      exact_mod_cast hiN
    have hfl_lb : (0 : ℤ) ≤ ⌊(i : ℝ) / (N : ℝ) * 12⌋ :=
      Int.floor_nonneg.mpr (by positivity)
    have hfl_ub : ⌊(i : ℝ) / (N : ℝ) * 12⌋ ≤ 11 := by
      have h12 : (i : ℝ) / (N : ℝ) * 12 < 12 := by nlinarith
      have hlt : ⌊(i : ℝ) / (N : ℝ) * 12⌋ < (12 : ℤ) :=
        Int.floor_lt.mpr (by push_cast; exact h12)
      omega
    have hnY_ub : ((⌊(i : ℝ) / (N : ℝ) * 12⌋ : ℤ) : ℝ) / 12 ≤ 11 / 12 := by
      have : ((⌊(i : ℝ) / (N : ℝ) * 12⌋ : ℤ) : ℝ) ≤ 11 := by exact_mod_cast hfl_ub
      linarith
    have hcurved : 0 ≤ (1 - ((⌊(i : ℝ) / (N : ℝ) * 12⌋ : ℤ) : ℝ) / 12) ^ (1.3 : ℝ) :=
      Real.rpow_nonneg (by linarith) _
    have hmax : max (0.2 : ℝ)
        (R * ((1 - ((⌊(i : ℝ) / (N : ℝ) * 12⌋ : ℤ) : ℝ) / 12) * 0.8 +
          (1 - ((⌊(i : ℝ) / (N : ℝ) * 12⌋ : ℤ) : ℝ) / 12) ^ (1.3 : ℝ) * 0.2)) =
        R * ((1 - ((⌊(i : ℝ) / (N : ℝ) * 12⌋ : ℤ) : ℝ) / 12) * 0.8 +
          (1 - ((⌊(i : ℝ) / (N : ℝ) * 12⌋ : ℤ) : ℝ) / 12) ^ (1.3 : ℝ) * 0.2) := by
      apply max_eq_right
      nlinarith
    simp only [mkTreeTarget, claimTreeTargetQuant, if_neg hb, hmax]

/-- Concrete instance of `treeTarget_spec` at desktop parameters. -/
theorem treeTarget_spec_witness :
    mkTreeTarget 25 10 0 1 0.5 0.5 0.5 0.5 0.5 =
      claimTreeTargetQuant 25 10 0 1 0.5 (0.5 * 0.5) 0.5 0.5 0.5 :=
  treeTarget_spec 25 10 0 1 0.5 0.5 0.5 0.5 0.5 (by norm_num) (by norm_num)

/-! ## C2: stability of the tree-branch integrator

With `pinchStrength` held at 1 the per-particle update is
`v' = 0.9 (v + (0.35/d) u)` (unit vector `u` toward the target, applied
only when `d > 0.01`) followed by `p' = p + v'`.  The damping makes the
velocity eventually bounded (`limsup ‖v‖ ≤ 3.15`), and the auxiliary
vector `z = (p - target) + 9 v` moves by exactly `3.15` toward the target
each forced step, which yields a uniform eventual bound on the distance to
the tree target: the orbit neither diverges nor oscillates unboundedly. -/

theorem animateStep_one_dyn (tT tE : V3) (j : Fin 3 → ℝ) (p v : V3) :
    (toE (animateStep 1 tT tE j p v).1, toE (animateStep 1 tT tE j p v).2) =
      dyn (toE tT) (toE p, toE v) := by
  rw [animateStep, dyn, GRAVITY_STRENGTH, DAMPING]
  rw [if_pos (by norm_num : (1:ℝ) > 0.01)]
  have hd : ‖toE tT - toE p‖ = distTo p tT := (distTo_eq_norm p tT).symm
  rw [hd]
  by_cases h2 : distTo p tT > 0.01
  · simp only [if_pos h2, Prod.ext_iff]
    constructor <;> funext k <;> fin_cases k <;>
      simp [PiLp.add_apply, PiLp.smul_apply, PiLp.sub_apply, smul_eq_mul] <;> ring
  · simp only [if_neg h2, Prod.ext_iff]
    constructor <;> funext k <;> fin_cases k <;>
      simp [PiLp.add_apply, PiLp.smul_apply, PiLp.sub_apply, smul_eq_mul] <;> ring

theorem treeOrbit_eq_dynOrbit (tT tE : V3) (j : Fin 3 → ℝ) (s0 : V3 × V3) (n : ℕ) :
    (toE (treeOrbit tT tE j s0 n).1, toE (treeOrbit tT tE j s0 n).2) =
      dynOrbit (toE tT) (toE s0.1, toE s0.2) n := by
  induction n with
  | zero => rfl
  | succ k ih =>
      rw [treeOrbit, dynOrbit, ← ih]
      exact animateStep_one_dyn tT tE j _ _


theorem dyn_vel_force (t p v : E3) (h : ‖t - p‖ > 0.01) :
    (dyn t (p, v)).2 = (0.9 : ℝ) • v + (0.315 / ‖t - p‖) • (t - p) := by
  rw [dyn]
  simp only [if_pos h]
  rw [smul_add, smul_smul]
  congr 1
  ring_nf

theorem dyn_vel_noforce (t p v : E3) (h : ¬ ‖t - p‖ > 0.01) :
    (dyn t (p, v)).2 = (0.9 : ℝ) • v := by
  rw [dyn]
  simp only [if_neg h]

theorem dyn_pos (t : E3) (s : E3 × E3) : (dyn t s).1 = s.1 + (dyn t s).2 := rfl

theorem dyn_vel_bound (t : E3) (s : E3 × E3) :
    ‖(dyn t s).2‖ ≤ 0.9 * ‖s.2‖ + 0.315 := by
  obtain ⟨p, v⟩ := s
  by_cases h : ‖t - p‖ > 0.01
  · rw [dyn_vel_force t p v h]
    have h0 : (0:ℝ) < ‖t - p‖ := by linarith
    have hw : ‖(0.315 / ‖t - p‖) • (t - p)‖ = 0.315 := by
      rw [norm_smul, Real.norm_eq_abs, abs_of_pos (by positivity)]
      field_simp
    calc ‖(0.9 : ℝ) • v + (0.315 / ‖t - p‖) • (t - p)‖
        ≤ ‖(0.9 : ℝ) • v‖ + ‖(0.315 / ‖t - p‖) • (t - p)‖ := norm_add_le _ _
      _ = 0.9 * ‖v‖ + 0.315 := by
          rw [hw, norm_smul, Real.norm_eq_abs, abs_of_pos (by norm_num : (0:ℝ) < 0.9)]
  · rw [dyn_vel_noforce t p v h]
    rw [norm_smul, Real.norm_eq_abs, abs_of_pos (by norm_num : (0:ℝ) < 0.9)]
    linarith [norm_nonneg v]

theorem dyn_z_force (t p v : E3) (h : ‖t - p‖ > 0.01) :
    (dyn t (p, v)).1 - t + (9 : ℝ) • (dyn t (p, v)).2 =
      (p - t + (9 : ℝ) • v) - (3.15 / ‖t - p‖) • (p - t) := by
  rw [dyn_pos, dyn_vel_force t p v h]
  match_scalars <;> (field_simp; ring_nf)

theorem dyn_z_noforce (t p v : E3) (h : ¬ ‖t - p‖ > 0.01) :
    (dyn t (p, v)).1 - t + (9 : ℝ) • (dyn t (p, v)).2 = p - t + (9 : ℝ) • v := by
  rw [dyn_pos, dyn_vel_noforce t p v h]
  module

theorem dyn_z_growth (t p v : E3) :
    ‖(dyn t (p, v)).1 - t + (9 : ℝ) • (dyn t (p, v)).2‖ ≤
      ‖p - t + (9 : ℝ) • v‖ + 3.15 := by
  by_cases h : ‖t - p‖ > 0.01
  · rw [dyn_z_force t p v h]
    have h0 : (0:ℝ) < ‖t - p‖ := by linarith
    have hw : ‖(3.15 / ‖t - p‖) • (p - t)‖ = 3.15 := by
      rw [norm_smul, Real.norm_eq_abs, abs_of_pos (by positivity), norm_sub_rev p t]
      exact div_mul_cancel₀ (3.15 : ℝ) (by positivity)
    calc ‖(p - t + (9 : ℝ) • v) - (3.15 / ‖t - p‖) • (p - t)‖
        ≤ ‖p - t + (9 : ℝ) • v‖ + ‖(3.15 / ‖t - p‖) • (p - t)‖ := norm_sub_le _ _
      _ = ‖p - t + (9 : ℝ) • v‖ + 3.15 := by rw [hw]
  · rw [dyn_z_noforce t p v h]
    linarith [norm_nonneg (p - t + (9 : ℝ) • v)]

theorem dyn_z_decrease (t p v : E3) (hv : ‖v‖ ≤ 3.2) (hx : 31 ≤ ‖p - t‖) :
    ‖(dyn t (p, v)).1 - t + (9 : ℝ) • (dyn t (p, v)).2‖ ^ 2 ≤
      ‖p - t + (9 : ℝ) • v‖ ^ 2 - 3.9375 := by
  have hxt : ‖t - p‖ = ‖p - t‖ := norm_sub_rev t p
  have hd : ‖t - p‖ > 0.01 := by rw [hxt]; linarith
  have hd0 : (0:ℝ) < ‖p - t‖ := by linarith
  rw [dyn_z_force t p v hd]
  set X : E3 := p - t with hX
  set Z : E3 := p - t + (9 : ℝ) • v with hZ
  set d : ℝ := ‖p - t‖ with hd2
  have hw : ‖(3.15 / ‖t - p‖) • X‖ = 3.15 := by
    rw [norm_smul, Real.norm_eq_abs, hxt, abs_of_pos (by positivity)]
    have hXd : ‖X‖ = d := rfl
    rw [hXd]
    exact div_mul_cancel₀ (3.15 : ℝ) (by positivity)
  have hiZX : (inner Z X : ℝ) ≥ d ^ 2 - 28.8 * d := by
    have h1 : (inner Z X : ℝ) = (inner X X : ℝ) + 9 * (inner v X : ℝ) := by
      rw [hZ]
      rw [inner_add_left, real_inner_smul_left]
    have h2 : (inner X X : ℝ) = d ^ 2 := by
      rw [real_inner_self_eq_norm_sq]
    have h3 : |(inner v X : ℝ)| ≤ ‖v‖ * ‖X‖ := abs_real_inner_le_norm v X
    have h4 : (inner v X : ℝ) ≥ -(3.2 * d) := by
      have := abs_le.mp h3
      have hn : ‖v‖ * ‖X‖ ≤ 3.2 * d := by
        apply mul_le_mul hv le_rfl (norm_nonneg X)
        norm_num
      linarith [this.1]
    rw [h1, h2]
    linarith
  have hinner : (inner Z ((3.15 / ‖t - p‖) • X) : ℝ) ≥ 6.93 := by
    rw [real_inner_smul_right, hxt]
    have hc : (0:ℝ) < 3.15 / d := by positivity
    have h5 : d ^ 2 - 28.8 * d ≥ 31 * d - 28.8 * d := by nlinarith
    have h6 : (3.15 / d) * (inner Z X : ℝ) ≥ (3.15 / d) * (d ^ 2 - 28.8 * d) := by
      apply mul_le_mul_of_nonneg_left _ (le_of_lt hc)
      linarith [hiZX]
    have h7 : (3.15 / d) * (d ^ 2 - 28.8 * d) = 3.15 * d - 90.72 := by
      field_simp
      ring
    have h8 : 3.15 * d - 90.72 ≥ 3.15 * 31 - 90.72 := by nlinarith
    linarith
  calc ‖Z - (3.15 / ‖t - p‖) • X‖ ^ 2
      = ‖Z‖ ^ 2 - 2 * (inner Z ((3.15 / ‖t - p‖) • X) : ℝ) +
        ‖(3.15 / ‖t - p‖) • X‖ ^ 2 := norm_sub_sq_real Z _
    _ ≤ ‖Z‖ ^ 2 - 2 * 6.93 + 3.15 ^ 2 := by
        rw [hw]
        linarith [hinner]
    _ = ‖Z‖ ^ 2 - 3.9375 := by ring

theorem seqDescent (a : ℕ → ℝ) (b c δ : ℝ) (hδ : 0 < δ) (hbc : b ≤ c)
    (hdec : ∀ n, b < a n → a (n + 1) ≤ a n - δ)
    (hinv : ∀ n, a n ≤ b → a (n + 1) ≤ c) :
    ∃ N, ∀ n, N ≤ n → a n ≤ c := by
  have hstep : ∀ n, a n ≤ c → a (n + 1) ≤ c := by
    intro n h
    by_cases hb' : a n ≤ b
    · exact hinv n hb'
    · have := hdec n (lt_of_not_le hb')
      linarith
  have hreach : ∃ n0, a n0 ≤ b := by
    by_contra hcon
    push_neg at hcon
    have key : ∀ n, a n ≤ a 0 - n * δ := by
      intro n
      induction n with
      | zero => simp
      | succ k ih =>
        have hk := hdec k (hcon k)
        push_cast
        push_cast at ih
        linarith
    obtain ⟨n, hn⟩ := exists_nat_gt ((a 0 - b) / δ)
    have h1 := key n
    have h2 := hcon n
    have h3 : a 0 - b < n * δ := by
      rw [div_lt_iff₀ hδ] at hn
      linarith
    linarith
  obtain ⟨n0, hn0⟩ := hreach
  refine ⟨n0, ?_⟩
  intro n hn
  obtain ⟨m, rfl⟩ := Nat.exists_eq_add_of_le hn
  clear hn
  induction m with
  | zero => exact le_trans hn0 hbc
  | succ k ih => exact hstep (n0 + k) ih

theorem dynOrbit_vel_eventually (t : E3) (s0 : E3 × E3) :
    ∃ N, ∀ n, N ≤ n → ‖(dynOrbit t s0 n).2‖ ≤ 3.2 := by
  apply seqDescent (fun n => ‖(dynOrbit t s0 n).2‖) 3.2 3.2 0.005 (by norm_num) le_rfl
  · intro n hb
    have := dyn_vel_bound t (dynOrbit t s0 n)
    have he : (dynOrbit t s0 (n + 1)).2 = (dyn t (dynOrbit t s0 n)).2 := rfl
    rw [he]
    linarith
  · intro n hb
    have := dyn_vel_bound t (dynOrbit t s0 n)
    have he : (dynOrbit t s0 (n + 1)).2 = (dyn t (dynOrbit t s0 n)).2 := rfl
    rw [he]
    linarith

theorem dynOrbit_dist_eventually (t : E3) (s0 : E3 × E3) :
    ∃ N, ∀ n, N ≤ n → ‖(dynOrbit t s0 n).1 - t‖ ≤ 100 := by
  obtain ⟨N1, hN1⟩ := dynOrbit_vel_eventually t s0
  have hz : ∃ M, ∀ m, M ≤ m →
      ‖(dynOrbit t s0 (N1 + m)).1 - t + (9 : ℝ) • (dynOrbit t s0 (N1 + m)).2‖ ^ 2 ≤
        3987.9225 := by
    apply seqDescent
      (fun m => ‖(dynOrbit t s0 (N1 + m)).1 - t + (9 : ℝ) • (dynOrbit t s0 (N1 + m)).2‖ ^ 2)
      3600 3987.9225 3.9375 (by norm_num) (by norm_num)
    · intro m hb
      set s := dynOrbit t s0 (N1 + m) with hs
      have hZ60 : 60 < ‖s.1 - t + (9 : ℝ) • s.2‖ := by
        nlinarith [norm_nonneg (s.1 - t + (9 : ℝ) • s.2)]
      have hvle : ‖s.2‖ ≤ 3.2 := hN1 (N1 + m) (Nat.le_add_right N1 m)
      have hx31 : 31 ≤ ‖s.1 - t‖ := by
        have h9 : ‖(9 : ℝ) • s.2‖ ≤ 28.8 := by
          rw [norm_smul, Real.norm_eq_abs, abs_of_pos (by norm_num : (0:ℝ) < 9)]
          linarith
        have htr : ‖s.1 - t + (9 : ℝ) • s.2‖ ≤ ‖s.1 - t‖ + ‖(9 : ℝ) • s.2‖ :=
          norm_add_le _ _
        linarith
      have hdec := dyn_z_decrease t s.1 s.2 hvle hx31
      have he : dynOrbit t s0 (N1 + (m + 1)) = dyn t s := rfl
      rw [he]
      have hps : (s.1, s.2) = s := rfl
      rw [hps] at hdec
      linarith
    · intro m hb
      set s := dynOrbit t s0 (N1 + m) with hs
      have hZ60 : ‖s.1 - t + (9 : ℝ) • s.2‖ ≤ 60 := by
        nlinarith [norm_nonneg (s.1 - t + (9 : ℝ) • s.2)]
      have hgrow := dyn_z_growth t s.1 s.2
      have he : dynOrbit t s0 (N1 + (m + 1)) = dyn t s := rfl
      rw [he]
      have hps : (s.1, s.2) = s := rfl
      rw [hps] at hgrow
      have : ‖(dyn t s).1 - t + (9 : ℝ) • (dyn t s).2‖ ≤ 63.15 := by linarith
      nlinarith [norm_nonneg ((dyn t s).1 - t + (9 : ℝ) • (dyn t s).2)]
  obtain ⟨M, hM⟩ := hz
  refine ⟨N1 + M, ?_⟩
  intro n hn
  obtain ⟨k, rfl⟩ := Nat.exists_eq_add_of_le hn
  have hassoc : N1 + M + k = N1 + (M + k) := Nat.add_assoc N1 M k
  rw [hassoc]
  have hsq := hM (M + k) (Nat.le_add_right M k)
  set s := dynOrbit t s0 (N1 + (M + k)) with hs
  have hZ : ‖s.1 - t + (9 : ℝ) • s.2‖ ≤ 63.15 := by
    nlinarith [norm_nonneg (s.1 - t + (9 : ℝ) • s.2)]
  have hvle : ‖s.2‖ ≤ 3.2 := hN1 (N1 + (M + k)) (Nat.le_add_right N1 (M + k))
  have h9 : ‖(9 : ℝ) • s.2‖ ≤ 28.8 := by
    rw [norm_smul, Real.norm_eq_abs, abs_of_pos (by norm_num : (0:ℝ) < 9)]
    linarith
  have hdecomp : s.1 - t = (s.1 - t + (9 : ℝ) • s.2) - (9 : ℝ) • s.2 := by abel
  calc ‖s.1 - t‖ = ‖(s.1 - t + (9 : ℝ) • s.2) - (9 : ℝ) • s.2‖ := by rw [← hdecomp]
    _ ≤ ‖s.1 - t + (9 : ℝ) • s.2‖ + ‖(9 : ℝ) • s.2‖ := norm_sub_le _ _
    _ ≤ 100 := by linarith

/-- C2: for every particle (any targets, any jitter draws, any initial
position and velocity), if `pinchStrength` is held at 1 then the iterated
integrator step is stable: after finitely many frames the distance from the
live position to the tree target stays within a fixed epsilon (100 world
units, uniform over all initial states) forever — the orbit does not
diverge and does not oscillate unboundedly. -/
theorem treeOrbit_eventually_near_target :
    ∀ (tT tE : V3) (j : Fin 3 → ℝ) (p0 v0 : V3),
      ∃ N, ∀ n, N ≤ n → distTo (treeOrbit tT tE j (p0, v0) n).1 tT ≤ 100 := by
  intro tT tE j p0 v0
  obtain ⟨N, hN⟩ := dynOrbit_dist_eventually (toE tT) (toE p0, toE v0)
  refine ⟨N, ?_⟩
  intro n hn
  have hb := treeOrbit_eq_dynOrbit tT tE j (p0, v0) n
  have h1 : toE (treeOrbit tT tE j (p0, v0) n).1 =
      (dynOrbit (toE tT) (toE p0, toE v0) n).1 := congrArg Prod.fst hb
  have h2 := hN n hn
  rw [distTo_eq_norm, norm_sub_rev, h1]
  exact h2

end
